import Mathlib

/-!
Verification development for the torbox-auto-downloader repository.
The Python dictionaries used by the tracker and the active-session registry
are embedded as association lists with string keys; every operation below is
translated from `src/file_processor.py` and `src/download_tracker.py`.
-/

namespace Torbox

/-- Python dict lookup `d.get(k)` / `d[k]` on a string-keyed mapping. -/
def lookupKey {α : Type} : List (String × α) → String → Option α
  | [], _ => none
  | p :: rest, k => if p.1 == k then some p.2 else lookupKey rest k

/-- Python membership test `k in d` on a string-keyed mapping. -/
def containsKey {α : Type} (l : List (String × α)) (k : String) : Bool :=
  l.any (fun p => p.1 == k)

/-- Python `del d[k]`. -/
def eraseKey {α : Type} (l : List (String × α)) (k : String) : List (String × α) :=
  l.filter (fun p => p.1 != k)

/-- Mutation of the value stored under key `k` (attribute assignment on the
stored object, or `d[k] = v`). -/
def setValue {α : Type} (l : List (String × α)) (k : String) (f : α → α) : List (String × α) :=
  l.map (fun p => if p.1 == k then (p.1, f p.2) else p)

/-- Python dict assignment `d[k] = v`: overwrite when present, append otherwise. -/
def dictSet {α : Type} (l : List (String × α)) (k : String) (v : α) : List (String × α) :=
  if containsKey l k then setValue l k (fun _ => v) else l ++ [(k, v)]

theorem containsKey_eraseKey {α : Type} (l : List (String × α)) (k : String) :
    containsKey (eraseKey l k) k = false := by
  induction l with
  | nil => rfl
  | cons p rest ih =>
    by_cases h : p.1 = k
    · simpa [eraseKey, containsKey, h] using ih
    · simpa [eraseKey, containsKey, List.filter_cons, h] using ih

theorem lookupKey_eraseKey {α : Type} (l : List (String × α)) (k : String) :
    lookupKey (eraseKey l k) k = none := by
  induction l with
  | nil => rfl
  | cons p rest ih =>
    by_cases h : p.1 = k
    · simpa [eraseKey, lookupKey, h] using ih
    · simpa [eraseKey, lookupKey, List.filter_cons, h] using ih

theorem containsKey_setValue {α : Type} (l : List (String × α)) (k : String) (f : α → α) :
    containsKey (setValue l k f) k = containsKey l k := by
  unfold containsKey setValue
  rw [List.any_map]
  congr 1
  funext p
  by_cases h : p.1 = k <;> simp [h, Function.comp]

theorem lookupKey_setValue {α : Type} (l : List (String × α)) (k : String) (f : α → α) :
    lookupKey (setValue l k f) k = (lookupKey l k).map f := by
  induction l with
  | nil => rfl
  | cons p rest ih =>
    by_cases h : p.1 = k
    · simp [setValue, lookupKey, h]
    · simpa [setValue, lookupKey, h] using ih

theorem containsKey_eq_isSome_lookupKey {α : Type} (l : List (String × α)) (k : String) :
    containsKey l k = (lookupKey l k).isSome := by
  induction l with
  | nil => rfl
  | cons p rest ih =>
    by_cases hp : p.1 = k
    · simp [containsKey, lookupKey, hp]
    · simp only [containsKey] at ih
      simp [containsKey, lookupKey, hp, ih]

theorem lookupKey_of_not_contains {α : Type} (l : List (String × α)) (k : String)
    (h : containsKey l k = false) : lookupKey l k = none := by
  induction l with
  | nil => rfl
  | cons p rest ih =>
    simp [containsKey] at h
    have h2 : containsKey rest k = false := by
      simp [containsKey]
      exact h.2
    simp [lookupKey, h.1, ih h2]

theorem containsKey_append_single {α : Type} (l : List (String × α)) (k : String) (v : α) :
    containsKey (l ++ [(k, v)]) k = true := by
  simp [containsKey]

theorem lookupKey_append_single {α : Type} (l : List (String × α)) (k : String) (v : α)
    (h : containsKey l k = false) : lookupKey (l ++ [(k, v)]) k = some v := by
  induction l with
  | nil => simp [lookupKey]
  | cons p rest ih =>
    simp [containsKey] at h
    have h2 : containsKey rest k = false := by
      simp [containsKey]
      exact h.2
    simpa [lookupKey, h.1] using ih h2

/-! ### Transfer Session: `DownloadStats` (src/file_processor.py, lines 31-109)

Times and rates are embedded as rationals; byte counts as naturals.
`total_size` is the integer `int(head_response.headers.get("content-length", 0))`
from line 281, so `0` encodes the Python-falsy "unknown total" case. -/

/-- The mutable state of `DownloadStats` that the claims are about
(`src/file_processor.py` lines 36-51).  `start_time` is omitted: no claim
mentions elapsed time. -/
structure DownloadStats where
  filename : String
  total_size : Nat
  downloaded : Nat
  last_update_time : Rat
  last_downloaded : Nat
  should_stop : Bool
  download_complete : Bool
deriving DecidableEq

/-- `DownloadStats.__init__` followed by the seeding
`download_stats.downloaded = downloaded_size` of lines 317-323: the resume
offset read from the partial file on disk becomes the initial counter. -/
def initDownloadStats (filename : String) (total_size : Nat) (existing_size : Nat)
    (now : Rat) : DownloadStats :=
  { filename := filename
    total_size := total_size
    downloaded := existing_size
    last_update_time := now
    last_downloaded := 0
    should_stop := false
    download_complete := false }

/-- `DownloadStats.update` (lines 53-60): `self.downloaded += chunk_size`. -/
def DownloadStats.update (s : DownloadStats) (chunk_size : Nat) : DownloadStats :=
  { s with downloaded := s.downloaded + chunk_size }

/-- `DownloadStats.get_speed` (lines 62-77), with the wall clock passed in
explicitly.  Returns the speed together with the mutated object: on a positive
time delta it moves the sampling baseline (`last_update_time`,
`last_downloaded`) forward. -/
def get_speed (s : DownloadStats) (now : Rat) : Rat × DownloadStats :=
  let time_diff := now - s.last_update_time
  if 0 < time_diff then
    let bytes_diff : Rat := (s.downloaded : Rat) - (s.last_downloaded : Rat)
    (bytes_diff / time_diff,
      { s with last_update_time := now, last_downloaded := s.downloaded })
  else (0, s)

/-- `DownloadStats.get_eta` (lines 99-109), with the wall-clock instants of its
two inner `get_speed()` calls passed in as `t1` (the guard call) and `t2` (the
divisor call).  The first projection encodes the Python outcome:
`none` is an uncaught `ZeroDivisionError`, `some none` is Python `None`,
`some (some q)` is a returned ETA of `q` seconds.  The guard
`if self.total_size and self.get_speed() > 0` short-circuits on a falsy
(zero) total. -/
def get_eta (s : DownloadStats) (t1 t2 : Rat) : Option (Option Rat) × DownloadStats :=
  if s.total_size = 0 then (some none, s)
  else
    let r1 := get_speed s t1
    if 0 < r1.1 then
      let remaining : Rat := (s.total_size : Rat) - (r1.2.downloaded : Rat)
      let r2 := get_speed r1.2 t2
      if r2.1 = 0 then (none, r2.2)
      else (some (some (remaining / r2.1)), r2.2)
    else (some none, r1.2)

/-! ### Response streaming and the resume fallback (lines 341-360) -/

/-- File open mode chosen at lines 347-353. -/
inductive FileMode
  | wb
  | ab
deriving DecidableEq

/-- The chunk loop of lines 356-360: for each truthy (non-empty) chunk the
bytes are appended to the file, `download_stats.update(len(chunk))` runs and
the local `downloaded_size` grows.  Returns (stats, downloaded_size, file). -/
def streamChunks (stats : DownloadStats) (downloaded_size : Nat) (file : List Nat) :
    List (List Nat) → DownloadStats × Nat × List Nat
  | [] => (stats, downloaded_size, file)
  | c :: rest =>
    if c.length ≠ 0 then
      streamChunks (stats.update c.length) (downloaded_size + c.length) (file ++ c) rest
    else
      streamChunks stats downloaded_size file rest

/-- Result of handling one GET response body (lines 341-360). -/
structure RespResult where
  mode : FileMode
  stats : DownloadStats
  downloaded_size : Nat
  file : List Nat
deriving DecidableEq

/-- Lines 341-360 of `FileProcessor.download_file`: after a GET answered with
`status`, decide the resume fallback (`downloaded_size > 0` with a 200 answer
resets both counters and truncates), pick the open mode, and stream the body
chunks into the file.  `file` is the current on-disk contents of the
destination; `chunks` is the response body split as `iter_content` yields it. -/
def processResponse (downloaded_size : Nat) (stats : DownloadStats) (file : List Nat)
    (status : Nat) (chunks : List (List Nat)) : RespResult :=
  let mode :=
    if 0 < downloaded_size ∧ status = 200 then FileMode.wb
    else if 0 < downloaded_size then FileMode.ab else FileMode.wb
  let ds0 := if 0 < downloaded_size ∧ status = 200 then 0 else downloaded_size
  let stats0 :=
    if 0 < downloaded_size ∧ status = 200 then { stats with downloaded := 0 } else stats
  let base := match mode with
    | FileMode.wb => []
    | FileMode.ab => file
  let r := streamChunks stats0 ds0 base chunks
  { mode := mode, stats := r.1, downloaded_size := r.2.1, file := r.2.2 }

theorem streamChunks_file (stats : DownloadStats) (ds : Nat) (file : List Nat)
    (chunks : List (List Nat)) :
    (streamChunks stats ds file chunks).2.2 = file ++ chunks.flatten := by
  induction chunks generalizing stats ds file with
  | nil => simp [streamChunks]
  | cons c rest ih =>
    by_cases h : c.length = 0
    · have hc : c = [] := List.length_eq_zero.mp h
      simp [streamChunks, hc, ih]
    · simp [streamChunks, h, ih, List.append_assoc]

theorem streamChunks_downloaded_mono (stats : DownloadStats) (ds : Nat) (file : List Nat)
    (chunks : List (List Nat)) :
    stats.downloaded ≤ (streamChunks stats ds file chunks).1.downloaded := by
  induction chunks generalizing stats ds file with
  | nil => simp [streamChunks]
  | cons c rest ih =>
    by_cases h : c.length = 0
    · simpa [streamChunks, h] using ih stats ds file
    · calc stats.downloaded ≤ (stats.update c.length).downloaded := by
            simp [DownloadStats.update]
        _ ≤ _ := by
            have hrec := ih (stats.update c.length) (ds + c.length) (file ++ c)
            simpa [streamChunks, h] using hrec

theorem streamChunks_counters (stats : DownloadStats) (ds : Nat) (file : List Nat)
    (chunks : List (List Nat)) :
    (streamChunks stats ds file chunks).1.downloaded = stats.downloaded + chunks.flatten.length
    ∧ (streamChunks stats ds file chunks).2.1 = ds + chunks.flatten.length := by
  induction chunks generalizing stats ds file with
  | nil => simp [streamChunks]
  | cons c rest ih =>
    by_cases h : c.length = 0
    · have hc : c = [] := List.length_eq_zero.mp h
      simpa [streamChunks, hc] using ih stats ds file
    · have hrec := ih (stats.update c.length) (ds + c.length) (file ++ c)
      constructor
      · calc (streamChunks stats ds file (c :: rest)).1.downloaded
            = (stats.update c.length).downloaded + rest.flatten.length := by
              simpa [streamChunks, h] using hrec.1
          _ = stats.downloaded + (c :: rest).flatten.length := by
              simp [DownloadStats.update]; omega
      · calc (streamChunks stats ds file (c :: rest)).2.1
            = (ds + c.length) + rest.flatten.length := by
              simpa [streamChunks, h] using hrec.2
          _ = ds + (c :: rest).flatten.length := by simp; omega

/-- C1: when the resume offset is positive and the server answers the ranged
GET with 200 instead of 206, `download_file` discards the prior progress: the
outcome of handling the response is byte-for-byte the outcome of a full
non-resumed download (counters restarted from zero, output file truncated by
the `wb` open mode), and the final file equals the full response body. -/
theorem resume_fallback_discards_progress (downloaded_size : Nat) (stats : DownloadStats)
    (file : List Nat) (chunks : List (List Nat)) (h : 0 < downloaded_size) :
    processResponse downloaded_size stats file 200 chunks
      = processResponse 0 { stats with downloaded := 0 } [] 200 chunks
    ∧ (processResponse downloaded_size stats file 200 chunks).mode = FileMode.wb
    ∧ (processResponse downloaded_size stats file 200 chunks).stats.downloaded
        = chunks.flatten.length
    ∧ (processResponse downloaded_size stats file 200 chunks).downloaded_size
        = chunks.flatten.length
    ∧ (processResponse downloaded_size stats file 200 chunks).file = chunks.flatten := by
  have hcond : 0 < downloaded_size ∧ (200 : Nat) = 200 := ⟨h, rfl⟩
  refine ⟨?_, ?_, ?_, ?_, ?_⟩
  · simp [processResponse, h]
  · simp [processResponse, h]
  · have := (streamChunks_counters { stats with downloaded := 0 } 0 [] chunks).1
    simpa [processResponse, h] using this
  · have := (streamChunks_counters { stats with downloaded := 0 } 0 [] chunks).2
    simpa [processResponse, h] using this
  · have := streamChunks_file { stats with downloaded := 0 } 0 [] chunks
    simpa [processResponse, h] using this

theorem resume_fallback_discards_progress_witness :
    0 < 3
    ∧ processResponse 3 (initDownloadStats "f.zip" 10 3 0) [9, 9, 9] 200 [[1, 2], [3]]
        = processResponse 0 { initDownloadStats "f.zip" 10 3 0 with downloaded := 0 } []
            200 [[1, 2], [3]] :=
  ⟨by decide,
    (resume_fallback_discards_progress 3 (initDownloadStats "f.zip" 10 3 0) [9, 9, 9]
      [[1, 2], [3]] (by decide)).1⟩

/-- C4 (code bug at `src/file_processor.py` lines 99-109): the guard of
`get_eta` checks one call of `get_speed`, but the division divides by a
*second*, fresh call.  The first call moves the sampling baseline, so the
second call can return 0 even though the checked speed was positive, and the
division then raises `ZeroDivisionError` (outcome `none` below) instead of
reporting `None` as the claim and the method's own docstring state. -/
theorem get_eta_zero_divisor_bug :
    0 < (get_speed (initDownloadStats "f.bin" 200 100 0) 1).1
    ∧ (get_speed (get_speed (initDownloadStats "f.bin" 200 100 0) 1).2 2).1 = 0
    ∧ (get_eta (initDownloadStats "f.bin" 200 100 0) 1 2).1 = none := by
  refine ⟨by norm_num [get_speed, initDownloadStats], ?_, ?_⟩
  · norm_num [get_speed, initDownloadStats]
  · norm_num [get_eta, get_speed, initDownloadStats]

/-- C5 counterexample: the transferred-byte counter is not monotonically
non-decreasing over the session's lifetime — the resume fallback of lines
347-350 resets it from 5 to 0 — and a session seeded from a pre-existing
partial file larger than the probed total (lines 317-323) starts out already
exceeding the known total size. -/
theorem transfer_counter_invariant_counterexample :
    (processResponse 5 (initDownloadStats "f.bin" 10 5 0) [7, 7, 7, 7, 7] 200 []).stats.downloaded
        < (initDownloadStats "f.bin" 10 5 0).downloaded
    ∧ (initDownloadStats "g.bin" 5 10 0).total_size ≠ 0
    ∧ (initDownloadStats "g.bin" 5 10 0).total_size
        < (initDownloadStats "g.bin" 5 10 0).downloaded := by
  refine ⟨by decide, by decide, by decide⟩

/-- C5 (amended): the counter is monotonically non-decreasing across the
updates of a single response stream — `DownloadStats.update` only adds the
(non-negative) chunk length, and the chunk loop never lowers it — but the
resume-fallback reset of lines 347-350 and a pre-existing file larger than
the probed total can break lifetime monotonicity and the total-size bound. -/
theorem transfer_counter_monotone_within_stream (stats : DownloadStats) (c : Nat)
    (downloaded_size : Nat) (file : List Nat) (chunks : List (List Nat)) :
    stats.downloaded ≤ (stats.update c).downloaded
    ∧ stats.downloaded ≤ (streamChunks stats downloaded_size file chunks).1.downloaded :=
  ⟨by simp [DownloadStats.update],
    streamChunks_downloaded_mono stats downloaded_size file chunks⟩

/-! ### The retry loop of `download_file` (src/file_processor.py, lines 275-389)

The loop `while retry_count < max_retries` performs one GET attempt per
iteration; a transient network error increments `retry_count`, sleeps
`min(30, 5 * retry_count)` seconds, re-reads the on-disk size as the new
resume offset (when the file exists) and retries; the 10th failure re-raises.
The environment is scripted: `script k` is the outcome of the attempt made
with `retry_count = k`.  The loop is compiled with the explicit fuel
`max_retries - retry_count`, which the guard keeps positive. -/

def max_retries : Nat := 10

/-- Outcome of one GET attempt: success, or one of the three caught transient
errors (`ConnectionError`, `ChunkedEncodingError`, `Timeout`), carrying the
on-disk size found afterwards (`none` when the file does not exist). -/
inductive AttemptOutcome
  | success
  | netErr (disk_size : Option Nat)
deriving DecidableEq

/-- Whether the attempt raised one of the caught transient errors. -/
def AttemptOutcome.isErr : AttemptOutcome → Bool
  | .success => false
  | .netErr _ => true

/-- Observable trace of the retry loop: number of attempts made, the sleep
durations performed between attempts in order, the resume offset at the start
of each attempt, and whether the loop ended by re-raising after exhausting
`max_retries`. -/
structure RetryTrace where
  attempts : Nat
  sleeps : List Nat
  offsets : List Nat
  exhausted : Bool
deriving DecidableEq

/-- The retry loop body, fuel compiled: `fuel = max_retries - retry_count`.
`fuel = 0` means the `while` guard is false and the loop is not entered.
On `netErr` with `retry_count + 1 < max_retries` (equivalently `1 < fuel`) the
loop sleeps `min 30 (5 * (retry_count + 1))` and continues with the on-disk
size as the new offset; otherwise the error is re-raised (`exhausted`). -/
def retryLoopAux (script : Nat → AttemptOutcome) : Nat → Nat → Nat → RetryTrace
  | 0, _, _ => { attempts := 0, sleeps := [], offsets := [], exhausted := false }
  | fuel + 1, retry_count, downloaded_size =>
    match script retry_count with
    | .success =>
      { attempts := 1, sleeps := [], offsets := [downloaded_size], exhausted := false }
    | .netErr disk_size =>
      if fuel = 0 then
        { attempts := 1, sleeps := [], offsets := [downloaded_size], exhausted := true }
      else
        let wait_time := min 30 (5 * (retry_count + 1))
        let rest := retryLoopAux script fuel (retry_count + 1)
          (disk_size.getD downloaded_size)
        { attempts := rest.attempts + 1, sleeps := wait_time :: rest.sleeps,
          offsets := downloaded_size :: rest.offsets, exhausted := rest.exhausted }

/-- The retry loop as entered by `download_file`: `retry_count = 0`,
fuel `max_retries`. -/
def download_retry_loop (script : Nat → AttemptOutcome) (downloaded_size : Nat) : RetryTrace :=
  retryLoopAux script max_retries 0 downloaded_size

theorem retryLoopAux_attempts_le (script : Nat → AttemptOutcome) :
    ∀ fuel rc ds, (retryLoopAux script fuel rc ds).attempts ≤ fuel := by
  intro fuel
  induction fuel with
  | zero => intro rc ds; simp [retryLoopAux]
  | succ n ih =>
    intro rc ds
    cases hs : script rc with
    | success =>
      simp only [retryLoopAux]
      rw [hs]
      simp
    | netErr disk =>
      simp only [retryLoopAux]
      rw [hs]
      by_cases hn : n = 0
      · simp [hn]
      · have := ih (rc + 1) (disk.getD ds)
        simp only [hn, if_false]
        omega

theorem retryLoopAux_sleeps (script : Nat → AttemptOutcome) :
    ∀ fuel rc ds,
      (retryLoopAux script fuel rc ds).sleeps
        = (List.range (retryLoopAux script fuel rc ds).sleeps.length).map
            (fun i => min 30 (5 * (rc + i + 1))) := by
  intro fuel
  induction fuel with
  | zero => intro rc ds; simp [retryLoopAux]
  | succ n ih =>
    intro rc ds
    cases hs : script rc with
    | success =>
      simp only [retryLoopAux]
      rw [hs]
      simp
    | netErr disk =>
      simp only [retryLoopAux]
      rw [hs]
      by_cases hn : n = 0
      · simp [hn]
      · have hrec := ih (rc + 1) (disk.getD ds)
        simp only [hn, if_false]
        rw [hrec]
        simp only [List.length_cons, List.length_map, List.length_range,
          List.range_succ_eq_map, List.map_cons, List.map_map]
        refine List.cons_eq_cons.mpr ⟨by omega, ?_⟩
        apply List.map_congr_left
        intro i _
        simp only [Function.comp_apply]
        omega

theorem retryLoopAux_exhausts (script : Nat → AttemptOutcome) :
    ∀ fuel rc ds, (∀ k, (script k).isErr = true) → 0 < fuel →
      (retryLoopAux script fuel rc ds).exhausted = true
      ∧ (retryLoopAux script fuel rc ds).attempts = fuel := by
  intro fuel
  induction fuel with
  | zero => intro rc ds _ h0; exact absurd h0 (by omega)
  | succ n ih =>
    intro rc ds herr _
    have hs : (script rc).isErr = true := herr rc
    cases hsc : script rc with
    | success => rw [hsc] at hs; simp [AttemptOutcome.isErr] at hs
    | netErr disk =>
      simp only [retryLoopAux]
      rw [hsc]
      by_cases hn : n = 0
      · simp [hn]
      · have hrec := ih (rc + 1) (disk.getD ds) herr (by omega)
        simp only [hn, if_false]
        exact ⟨hrec.1, by omega⟩

/-- C6: the retry loop of `download_file` makes at most 10 attempts; the k-th
sleep between attempts (k counted from 1, equal to the failure count so far)
lasts `min 30 (5 * k)` seconds, so the backoff grows linearly and never
exceeds 30 seconds; a transient failure that carries an on-disk size makes the
next iteration resume from exactly that size; and a script that fails every
attempt exhausts the loop after exactly 10 attempts and re-raises (terminal
failure for the job). -/
theorem retry_loop_bounded_backoff (script : Nat → AttemptOutcome) (downloaded_size : Nat) :
    (download_retry_loop script downloaded_size).attempts ≤ max_retries
    ∧ (download_retry_loop script downloaded_size).sleeps
        = (List.range (download_retry_loop script downloaded_size).sleeps.length).map
            (fun i => min 30 (5 * (i + 1)))
    ∧ (∀ w ∈ (download_retry_loop script downloaded_size).sleeps, w ≤ 30)
    ∧ ((∀ k, (script k).isErr = true) →
        (download_retry_loop script downloaded_size).exhausted = true
        ∧ (download_retry_loop script downloaded_size).attempts = max_retries)
    ∧ (∀ fuel rc ds sz, script rc = AttemptOutcome.netErr (some sz) →
        (retryLoopAux script (fuel + 2) rc ds).offsets
          = ds :: (retryLoopAux script (fuel + 1) (rc + 1) sz).offsets) := by
  refine ⟨retryLoopAux_attempts_le script max_retries 0 downloaded_size, ?_, ?_, ?_, ?_⟩
  · simpa using retryLoopAux_sleeps script max_retries 0 downloaded_size
  · intro w hw
    have hfix := retryLoopAux_sleeps script max_retries 0 downloaded_size
    simp only [download_retry_loop] at hw
    rw [hfix] at hw
    simp only [List.mem_map] at hw
    obtain ⟨i, _, hi⟩ := hw
    omega
  · intro herr
    exact retryLoopAux_exhausts script max_retries 0 downloaded_size herr (by decide)
  · intro fuel rc ds sz hsc
    simp only [retryLoopAux]
    rw [hsc]
    simp

theorem retry_loop_bounded_backoff_witness :
    (download_retry_loop (fun _ => AttemptOutcome.netErr none) 0).exhausted = true
    ∧ (download_retry_loop (fun _ => AttemptOutcome.netErr none) 0).attempts = max_retries :=
  (retry_loop_bounded_backoff (fun _ => AttemptOutcome.netErr none) 0).2.2.2.1
    (fun _ => rfl)

/-! ### Final cleanup of `download_file` (lines 399-403) and the stats thread
eviction (lines 405-420).

The active-session registry `active_downloads` maps a download id to its
`DownloadStats` object; the Job Tracker mapping `download_tracking` maps a
job identifier to its record.  The claims only depend on the tracker values
being opaque here, so they are a type parameter. -/

/-- The `finally` block of `download_file` (lines 399-403): set the stop flag
of the registered session if still registered, and delete the tracker entry if
still tracked. -/
def final_cleanup {α : Type} (active : List (String × DownloadStats))
    (tracking : List (String × α)) (download_id : String) :
    List (String × DownloadStats) × List (String × α) :=
  let active' :=
    if containsKey active download_id then
      setValue active download_id (fun s => { s with should_stop := true })
    else active
  let tracking' :=
    if containsKey tracking download_id then eraseKey tracking download_id
    else tracking
  (active', tracking')

/-- Lines 419-420 of `_stats_update_thread`: once the stop flag is observed the
reporter deletes the session from the registry, guarded by membership. -/
def stats_thread_cleanup (active : List (String × DownloadStats)) (download_id : String) :
    List (String × DownloadStats) :=
  if containsKey active download_id then eraseKey active download_id else active

/-- The stop flag of a possibly already evicted session: an absent session
counts as stopped. -/
def stoppedOrGone : Option DownloadStats → Bool
  | some s => s.should_stop
  | none => true

/-- C7: whatever the outcome of `download_file`, the `finally` cleanup leaves
the tracker without the job identifier and the registered session (if any)
with its stop flag set, upon which the reporter removes it from the registry;
the cleanup is idempotent, and running it when the session and tracker entry
were already removed changes nothing. -/
theorem download_final_cleanup (α : Type) (active : List (String × DownloadStats))
    (tracking : List (String × α)) (download_id : String) :
    containsKey (final_cleanup active tracking download_id).2 download_id = false
    ∧ stoppedOrGone
        (lookupKey (final_cleanup active tracking download_id).1 download_id) = true
    ∧ containsKey
        (stats_thread_cleanup (final_cleanup active tracking download_id).1 download_id)
        download_id = false
    ∧ final_cleanup (final_cleanup active tracking download_id).1
        (final_cleanup active tracking download_id).2 download_id
        = final_cleanup active tracking download_id
    ∧ final_cleanup (eraseKey active download_id) (eraseKey tracking download_id)
        download_id
        = (eraseKey active download_id, eraseKey tracking download_id) := by
  have hcontains_a' :
      containsKey (final_cleanup active tracking download_id).1 download_id
        = containsKey active download_id := by
    by_cases h : containsKey active download_id = true
    · simp [final_cleanup, h, containsKey_setValue]
    · simp at h
      simp [final_cleanup, h]
  have htrack : containsKey (final_cleanup active tracking download_id).2 download_id
      = false := by
    by_cases h : containsKey tracking download_id = true
    · simp [final_cleanup, h, containsKey_eraseKey]
    · simp at h
      simp [final_cleanup, h]
  refine ⟨htrack, ?_, ?_, ?_, ?_⟩
  · by_cases h : containsKey active download_id = true
    · simp [final_cleanup, h, lookupKey_setValue, stoppedOrGone]
      cases hl : lookupKey active download_id with
      | none => simp [stoppedOrGone]
      | some s => simp [stoppedOrGone]
    · simp at h
      have hnone : lookupKey active download_id = none :=
        lookupKey_of_not_contains active download_id (by simp [h])
      simp [final_cleanup, h, hnone, stoppedOrGone]
  · by_cases h2 : containsKey (final_cleanup active tracking download_id).1 download_id = true
    · simp [stats_thread_cleanup, h2, containsKey_eraseKey]
    · simp at h2
      simp [stats_thread_cleanup, h2]
  · have ha2 : setValue
        (setValue active download_id (fun s => { s with should_stop := true }))
        download_id (fun s => { s with should_stop := true })
        = setValue active download_id (fun s => { s with should_stop := true }) := by
      unfold setValue
      rw [List.map_map]
      apply List.map_congr_left
      intro p _
      by_cases hp : p.1 = download_id <;> simp [Function.comp, hp]
    by_cases h : containsKey active download_id = true
    · simp only [final_cleanup, h, if_true, htrack]
      simp only [final_cleanup] at htrack
      simp [htrack, containsKey_setValue, h, ha2]
    · simp at h
      simp only [final_cleanup, h, if_false, Bool.false_eq_true]
      simp only [final_cleanup] at htrack
      simp [htrack, h]
  · simp [final_cleanup, containsKey_eraseKey]

/-! ### Archive layout analysis in `extract_zip` (src/file_processor.py, lines 437-465) -/

/-- `name.split('/')[0]`: the first path component of a ZIP entry name. -/
def firstSegment (name : String) : String :=
  (name.splitOn "/").headD ""

/-- Lines 441-445: the set `top_level_items` of distinct first path components
of all entry names, embedded as the deduplicated list. -/
def top_level_items (all_files : List String) : List String :=
  (all_files.map firstSegment).dedup

/-- Lines 448-453: when the set of top-level items is a singleton whose element
has at least one entry name under it (`name.startswith(top_item + '/')`), that
element is the single top-level directory; otherwise there is none. -/
def single_top_dir (all_files : List String) : Option String :=
  if (top_level_items all_files).length = 1 then
    let top_item := (top_level_items all_files).headD ""
    if all_files.any (fun name => name.startsWith (top_item ++ "/")) then some top_item
    else none
  else none

/-- Lines 456-465: the directory every entry is extracted into — `download_dir`
itself for a single-rooted archive, `download_dir / zip_path.stem` otherwise.
Paths are embedded as strings joined with `/`. -/
def extract_dir (download_dir zip_stem : String) (all_files : List String) : String :=
  match single_top_dir all_files with
  | some _ => download_dir
  | none => download_dir ++ "/" ++ zip_stem

/-- The spec's wording of the single-rooted condition, stated independently of
the code: there is exactly one distinct top-level segment (all entries share
it, and there is at least one entry) and at least one entry path is nested
under it. -/
def specSingleRooted (all_files : List String) : Prop :=
  ∃ t, all_files ≠ []
    ∧ (∀ name ∈ all_files, firstSegment name = t)
    ∧ ∃ name ∈ all_files, name.startsWith (t ++ "/") = true

theorem top_level_items_eq_singleton (all_files : List String) (t : String) :
    top_level_items all_files = [t]
      ↔ all_files ≠ [] ∧ ∀ name ∈ all_files, firstSegment name = t := by
  constructor
  · intro h
    constructor
    · intro hnil
      rw [hnil] at h
      simp [top_level_items] at h
    · intro name hn
      have : firstSegment name ∈ top_level_items all_files := by
        simp [top_level_items]
        exact ⟨name, hn, rfl⟩
      rw [h] at this
      simpa using this
  · intro ⟨hne, hall⟩
    have hmem : ∀ x, x ∈ top_level_items all_files ↔ x = t := by
      intro x
      simp only [top_level_items, List.mem_dedup, List.mem_map]
      constructor
      · rintro ⟨name, hn, rfl⟩
        exact hall name hn
      · rintro rfl
        obtain ⟨name, hn⟩ := List.exists_mem_of_ne_nil all_files hne
        exact ⟨name, hn, hall name hn⟩
    have hnodup : (top_level_items all_files).Nodup := List.nodup_dedup _
    cases hl : top_level_items all_files with
    | nil =>
      exfalso
      have := (hmem t).mpr rfl
      rw [hl] at this
      simp at this
    | cons x rest =>
      have hx : x = t := (hmem x).mp (by rw [hl]; exact List.mem_cons_self x rest)
      have hrest : rest = [] := by
        rw [List.eq_nil_iff_forall_not_mem]
        intro y hy
        have hyt : y = t := (hmem y).mp (by rw [hl]; exact List.mem_cons_of_mem x hy)
        rw [hl] at hnodup
        rw [hx] at hnodup
        rw [hyt] at hy
        exact (List.nodup_cons.mp hnodup).1 hy
      rw [hx, hrest]

theorem single_top_dir_spec (all_files : List String) :
    (∃ t, single_top_dir all_files = some t) ↔ specSingleRooted all_files := by
  constructor
  · rintro ⟨t, ht⟩
    unfold single_top_dir at ht
    by_cases hcard : (top_level_items all_files).length = 1
    · obtain ⟨a, ha⟩ := List.length_eq_one.mp hcard
      rw [if_pos hcard] at ht
      have htop : (top_level_items all_files).headD "" = a := by
        rw [ha]
        rfl
      rw [htop] at ht
      by_cases hany : all_files.any (fun name => name.startsWith (a ++ "/")) = true
      · rw [if_pos hany] at ht
        obtain ⟨hne, hall⟩ := (top_level_items_eq_singleton all_files a).mp ha
        obtain ⟨name, hn, hst⟩ := List.any_eq_true.mp hany
        exact ⟨a, hne, hall, name, hn, hst⟩
      · rw [if_neg hany] at ht
        exact absurd ht (by simp)
    · rw [if_neg hcard] at ht
      exact absurd ht (by simp)
  · rintro ⟨t, hne, hall, name, hn, hst⟩
    have hsing : top_level_items all_files = [t] :=
      (top_level_items_eq_singleton all_files t).mpr ⟨hne, hall⟩
    have hcard : (top_level_items all_files).length = 1 := by
      rw [hsing]
      rfl
    have htop : (top_level_items all_files).headD "" = t := by
      rw [hsing]
      rfl
    refine ⟨t, ?_⟩
    unfold single_top_dir
    rw [if_pos hcard, htop, if_pos (List.any_eq_true.mpr ⟨name, hn, hst⟩)]

/-- C2: `extract_zip` extracts into the destination directory itself exactly
when the archive is single-rooted in the spec's sense (one distinct top-level
segment with at least one entry nested under it); otherwise — several
top-level segments, or a lone top-level file — it extracts into the
subdirectory named after the archive's stem. -/
theorem extract_dir_layout (download_dir zip_stem : String) (all_files : List String) :
    (specSingleRooted all_files ∧ extract_dir download_dir zip_stem all_files = download_dir)
    ∨ (¬ specSingleRooted all_files
        ∧ extract_dir download_dir zip_stem all_files = download_dir ++ "/" ++ zip_stem) := by
  by_cases h : specSingleRooted all_files
  · left
    refine ⟨h, ?_⟩
    obtain ⟨t, ht⟩ := (single_top_dir_spec all_files).mpr h
    simp [extract_dir, ht]
  · right
    refine ⟨h, ?_⟩
    cases hs : single_top_dir all_files with
    | none => simp [extract_dir, hs]
    | some t =>
      exact absurd ((single_top_dir_spec all_files).mp ⟨t, hs⟩) h

/-! ### Error containment in `extract_zip` (src/file_processor.py, lines 433-520)

The whole body runs in a `try` whose `except Exception` logs and sets the
session's stop flag (when registered), and whose `finally` evicts the session
from the registry (when present).  The ZIP file is unlinked only on the
success path (line 509).  The execution is parameterized by where an
exception, if any, is raised: during the structure analysis / counting pass
(before the `ExtractStats` session is created at lines 478-482) or during the
extraction loop (after registration).  Registry entries are the sessions'
stop flags. -/

/-- Where `extract_zip` raises, if anywhere. -/
inductive ExtractFailure
  | duringAnalysis
  | duringExtraction
deriving DecidableEq

/-- What is observable after `extract_zip` returns. -/
structure ExtractOutcome where
  raised : Bool
  archive_deleted : Bool
  session_flag : Option Bool
  registry : List (String × Bool)
deriving DecidableEq

/-- The control flow of `extract_zip` around its `try`/`except`/`finally`
(lines 435-520).  `session_flag` is the stop flag of the `ExtractStats`
object created at line 478, `none` when the exception predates its creation. -/
def extract_zip_run (fail : Option ExtractFailure) (active0 : List (String × Bool))
    (extract_id : String) : ExtractOutcome :=
  match fail with
  | some ExtractFailure.duringAnalysis =>
    let a1 :=
      if containsKey active0 extract_id then setValue active0 extract_id (fun _ => true)
      else active0
    let afinal := if containsKey a1 extract_id then eraseKey a1 extract_id else a1
    { raised := false, archive_deleted := false, session_flag := none, registry := afinal }
  | some ExtractFailure.duringExtraction =>
    let a0 := dictSet active0 extract_id false
    let a1 :=
      if containsKey a0 extract_id then setValue a0 extract_id (fun _ => true)
      else a0
    let flag := lookupKey a1 extract_id
    let afinal := if containsKey a1 extract_id then eraseKey a1 extract_id else a1
    { raised := false, archive_deleted := false, session_flag := flag, registry := afinal }
  | none =>
    let a0 := dictSet active0 extract_id false
    let a1 := setValue a0 extract_id (fun _ => true)
    let flag := lookupKey a1 extract_id
    let afinal := if containsKey a1 extract_id then eraseKey a1 extract_id else a1
    { raised := false, archive_deleted := true, session_flag := flag, registry := afinal }

theorem lookupKey_dictSet {α : Type} (l : List (String × α)) (k : String) (v : α) :
    lookupKey (dictSet l k v) k = some v := by
  unfold dictSet
  by_cases h : containsKey l k = true
  · rw [if_pos h]
    rw [lookupKey_setValue]
    cases hl : lookupKey l k with
    | none =>
      exfalso
      rw [containsKey_eq_isSome_lookupKey, hl] at h
      exact absurd h (by simp)
    | some w => rfl
  · simp at h
    rw [if_neg (by simp [h])]
    exact lookupKey_append_single l k v h

theorem containsKey_dictSet {α : Type} (l : List (String × α)) (k : String) (v : α) :
    containsKey (dictSet l k v) k = true := by
  unfold dictSet
  by_cases h : containsKey l k = true
  · rw [if_pos h, containsKey_setValue]
    exact h
  · simp at h
    rw [if_neg (by simp [h])]
    exact containsKey_append_single l k v

/-- C8: whichever way `extract_zip` fails, no exception escapes to the caller,
the archive file is deleted exactly on full success, the extraction session is
always evicted from the active registry, and whenever the session existed (the
failure hit after registration, or there was no failure) its stop flag ends up
set. -/
theorem extract_zip_error_containment (fail : Option ExtractFailure)
    (active0 : List (String × Bool)) (extract_id : String) :
    (extract_zip_run fail active0 extract_id).raised = false
    ∧ ((extract_zip_run fail active0 extract_id).archive_deleted = true ↔ fail = none)
    ∧ containsKey (extract_zip_run fail active0 extract_id).registry extract_id = false
    ∧ (fail = some ExtractFailure.duringExtraction →
        (extract_zip_run fail active0 extract_id).session_flag = some true)
    ∧ (fail = none →
        (extract_zip_run fail active0 extract_id).session_flag = some true) := by
  have hcontains_erase : ∀ (l : List (String × Bool)),
      containsKey (if containsKey l extract_id then eraseKey l extract_id else l)
        extract_id = false ∨ containsKey l extract_id = false := by
    intro l
    by_cases h : containsKey l extract_id = true
    · left
      rw [if_pos h]
      exact containsKey_eraseKey l extract_id
    · right
      simpa using h
  refine ⟨?_, ?_, ?_, ?_, ?_⟩
  · cases fail with
    | none => rfl
    | some f => cases f <;> rfl
  · cases fail with
    | none => simp [extract_zip_run]
    | some f => cases f <;> simp [extract_zip_run]
  · cases fail with
    | none =>
      simp only [extract_zip_run]
      rcases hcontains_erase (setValue (dictSet active0 extract_id false) extract_id
          (fun _ => true)) with h | h
      · exact h
      · rw [containsKey_setValue, containsKey_dictSet] at h
        exact absurd h (by simp)
    | some f =>
      cases f with
      | duringAnalysis =>
        simp only [extract_zip_run]
        by_cases h0 : containsKey active0 extract_id = true
        · rw [if_pos h0]
          rcases hcontains_erase (setValue active0 extract_id (fun _ => true)) with h | h
          · exact h
          · rw [containsKey_setValue] at h
            rw [h0] at h
            exact absurd h (by simp)
        · simp at h0
          rw [if_neg (by simp [h0]), if_neg (by simp [h0])]
          exact h0
      | duringExtraction =>
        simp only [extract_zip_run]
        have hc0 : containsKey (dictSet active0 extract_id false) extract_id = true :=
          containsKey_dictSet active0 extract_id false
        rw [if_pos hc0]
        rcases hcontains_erase (setValue (dictSet active0 extract_id false) extract_id
            (fun _ => true)) with h | h
        · exact h
        · rw [containsKey_setValue, hc0] at h
          exact absurd h (by simp)
  · intro hf
    subst hf
    simp only [extract_zip_run]
    have hc0 : containsKey (dictSet active0 extract_id false) extract_id = true :=
      containsKey_dictSet active0 extract_id false
    rw [if_pos hc0, lookupKey_setValue, lookupKey_dictSet]
    rfl
  · intro hf
    subst hf
    simp only [extract_zip_run]
    rw [lookupKey_setValue, lookupKey_dictSet]
    rfl

theorem extract_zip_error_containment_witness :
    some ExtractFailure.duringExtraction = some ExtractFailure.duringExtraction
    ∧ (extract_zip_run (some ExtractFailure.duringExtraction) [("dl1", false)]
        "extract_/downloads/a.zip").session_flag = some true :=
  ⟨rfl,
    (extract_zip_error_containment (some ExtractFailure.duringExtraction)
      [("dl1", false)] "extract_/downloads/a.zip").2.2.2.1 rfl⟩

/-! ### `DownloadTracker` (src/download_tracker.py)

Identifiers arrive either as strings or as service-assigned numeric IDs; a
Python value of one of these two kinds is embedded as `PyVal`.  All methods
except `remove_tracked_download` key the mapping by `str(identifier)`;
`remove_tracked_download` uses the raw value, and Python's `int == str`
comparison is always false.  Timestamps (`datetime.now().isoformat()` stored,
`fromisoformat` parsed back) round-trip exactly and are embedded as integer
seconds; `timedelta(hours=h)` is `h * 3600` seconds. -/

/-- A download identifier as passed by callers: a string or a numeric ID. -/
inductive PyVal
  | pstr (s : String)
  | pint (n : Int)
deriving DecidableEq

/-- Python `str(identifier)`. -/
def pyStr : PyVal → String
  | .pstr s => s
  | .pint n => toString n

/-- Python `identifier == key` for a string dict key: an `int` never equals a
`str`. -/
def pyKeyEq : PyVal → String → Bool
  | .pstr s, k => s == k
  | .pint _, _ => false

/-- The record stored by `track_download` (lines 50-60). -/
structure TrackInfo where
  type : String
  name : String
  submitted_at : Int
  original_file : Option String
  id : Option String
  hash : Option String
  download_dir : Option String
  failure_count : Nat
  is_multi_file : Bool
deriving DecidableEq

/-- The `download_tracking` dict. -/
abbrev Tracker := List (String × TrackInfo)

/-- `str(x) if x else None`: `None` and the empty string are falsy. -/
def truthyStr : Option String → Option String
  | some s => if s.isEmpty then none else some s
  | none => none

/-- The record literal of lines 50-60. -/
def mkTrackInfo (download_type file_stem : String) (now : Int)
    (original_file download_id download_hash download_dir : Option String)
    (is_multi_file : Bool) : TrackInfo :=
  { type := download_type
    name := file_stem
    submitted_at := now
    original_file := truthyStr original_file
    id := download_id
    hash := download_hash
    download_dir := truthyStr download_dir
    failure_count := 0
    is_multi_file := is_multi_file }

/-- `DownloadTracker.track_download` (lines 18-64): keyed by
`str(identifier)`; duplicate identifiers are rejected without mutation. -/
def track_download (tr : Tracker) (identifier : PyVal) (download_type file_stem : String)
    (now : Int) (original_file download_id download_hash download_dir : Option String)
    (is_multi_file : Bool) : Bool × Tracker :=
  if containsKey tr (pyStr identifier) then (false, tr)
  else
    (true, tr ++ [(pyStr identifier,
      mkTrackInfo download_type file_stem now original_file download_id download_hash
        download_dir is_multi_file)])

/-- `DownloadTracker.get_download_info` (lines 128-138): keyed by
`str(identifier)`. -/
def get_download_info (tr : Tracker) (identifier : PyVal) : Option TrackInfo :=
  lookupKey tr (pyStr identifier)

/-- `DownloadTracker.increment_failure_count` (lines 66-79): keyed by
`str(identifier)`. -/
def increment_failure_count (tr : Tracker) (identifier : PyVal) : Tracker :=
  if containsKey tr (pyStr identifier) then
    setValue tr (pyStr identifier) (fun i => { i with failure_count := i.failure_count + 1 })
  else tr

/-- `DownloadTracker.reset_failure_count` (lines 81-89): keyed by
`str(identifier)`. -/
def reset_failure_count (tr : Tracker) (identifier : PyVal) : Tracker :=
  if containsKey tr (pyStr identifier) then
    setValue tr (pyStr identifier) (fun i => { i with failure_count := 0 })
  else tr

/-- `DownloadTracker.update_filename` (lines 91-106): keyed by
`str(identifier)`. -/
def update_filename (tr : Tracker) (identifier : PyVal) (filename : String)
    (is_multi_file : Bool) : Tracker :=
  if containsKey tr (pyStr identifier) then
    setValue tr (pyStr identifier)
      (fun i => { i with name := filename, is_multi_file := is_multi_file })
  else tr

/-- `DownloadTracker.remove_tracked_download` (lines 117-126): the only method
that does NOT coerce its argument with `str(...)` — membership and deletion
use the raw value. -/
def remove_tracked_download (tr : Tracker) (download_id : PyVal) : Tracker :=
  if tr.any (fun p => pyKeyEq download_id p.1) then
    tr.filter (fun p => !(pyKeyEq download_id p.1))
  else tr

/-- The staleness test of lines 156-159:
`now - submitted_at > timedelta(hours=max_age_hours)`. -/
def is_stale (now max_age_hours : Int) (info : TrackInfo) : Bool :=
  max_age_hours * 3600 < now - info.submitted_at

/-- `DownloadTracker.cleanup_old_downloads` (lines 140-174): collect the
identifiers of all stale entries, delete each collected identifier, return
how many were collected.  (The `fromisoformat` parse cannot fail in this
embedding: `track_download` always stores a valid timestamp.) -/
def cleanup_old_downloads (tr : Tracker) (now : Int) (max_age_hours : Int) : Tracker × Nat :=
  let to_remove := (tr.filter (fun p => is_stale now max_age_hours p.2)).map Prod.fst
  (to_remove.foldl (fun t k => eraseKey t k) tr, to_remove.length)

/-- `cleanup_old_downloads()` with the default `max_age_hours=24`. -/
def cleanup_old_downloads_default (tr : Tracker) (now : Int) : Tracker × Nat :=
  cleanup_old_downloads tr now 24

/-- C3: tracking is at-most-once.  On a fresh identifier `track_download`
returns `true` and inserts exactly the record built from its arguments; a
second call with the same identifier (any arguments) returns `false` and
leaves the whole mapping — in particular the first record — unchanged. -/
theorem track_download_at_most_once (tr : Tracker) (identifier : PyVal)
    (dt1 fs1 : String) (n1 : Int) (of1 di1 dh1 dd1 : Option String) (m1 : Bool)
    (dt2 fs2 : String) (n2 : Int) (of2 di2 dh2 dd2 : Option String) (m2 : Bool)
    (h : containsKey tr (pyStr identifier) = false) :
    (track_download tr identifier dt1 fs1 n1 of1 di1 dh1 dd1 m1).1 = true
    ∧ lookupKey (track_download tr identifier dt1 fs1 n1 of1 di1 dh1 dd1 m1).2
        (pyStr identifier) = some (mkTrackInfo dt1 fs1 n1 of1 di1 dh1 dd1 m1)
    ∧ track_download (track_download tr identifier dt1 fs1 n1 of1 di1 dh1 dd1 m1).2
        identifier dt2 fs2 n2 of2 di2 dh2 dd2 m2
        = (false, (track_download tr identifier dt1 fs1 n1 of1 di1 dh1 dd1 m1).2) := by
  have hwrite : (track_download tr identifier dt1 fs1 n1 of1 di1 dh1 dd1 m1).2
      = tr ++ [(pyStr identifier,
          mkTrackInfo dt1 fs1 n1 of1 di1 dh1 dd1 m1)] := by
    simp [track_download, h]
  refine ⟨by simp [track_download, h], ?_, ?_⟩
  · rw [hwrite]
    exact lookupKey_append_single tr (pyStr identifier) _ h
  · rw [hwrite]
    simp [track_download, containsKey_append_single]

theorem track_download_at_most_once_witness :
    containsKey ([] : Tracker) (pyStr (PyVal.pstr "42")) = false
    ∧ (track_download ([] : Tracker) (PyVal.pstr "42") "torrent" "movie" 100
        (some "/watch/movie.torrent") (some "42") none (some "/downloads") false).1
        = true :=
  ⟨rfl,
    (track_download_at_most_once ([] : Tracker) (PyVal.pstr "42") "torrent" "movie" 100
      (some "/watch/movie.torrent") (some "42") none (some "/downloads") false
      "usenet" "other" 200 none none none none true rfl).1⟩

theorem foldl_eraseKey {α : Type} (R : List String) (l : List (String × α)) :
    R.foldl (fun t k => eraseKey t k) l
      = l.filter (fun p => !(R.any (fun k => p.1 == k))) := by
  induction R generalizing l with
  | nil => simp
  | cons k R ih =>
    simp only [List.foldl_cons]
    rw [ih]
    unfold eraseKey
    rw [List.filter_filter]
    apply List.filter_congr
    intro p _
    simp only [List.any_cons, Bool.not_or, bne]
    exact Bool.and_comm _ _

theorem stale_key_membership (tr : Tracker) (now mah : Int)
    (hnodup : (tr.map Prod.fst).Nodup) (p : String × TrackInfo) (hp : p ∈ tr) :
    ((tr.filter (fun q => is_stale now mah q.2)).map Prod.fst).any (fun k => p.1 == k)
      = is_stale now mah p.2 := by
  by_cases hs : is_stale now mah p.2 = true
  · rw [hs]
    apply List.any_eq_true.mpr
    exact ⟨p.1, List.mem_map.mpr ⟨p, List.mem_filter.mpr ⟨hp, hs⟩, rfl⟩, by simp⟩
  · have hs' : is_stale now mah p.2 = false := by
      cases hb : is_stale now mah p.2
      · rfl
      · exact absurd hb hs
    rw [hs']
    apply List.any_eq_false.mpr
    intro k hk
    simp only [beq_iff_eq]
    intro hek
    obtain ⟨q, hqmem, hqk⟩ := List.mem_map.mp hk
    obtain ⟨hqtr, hqstale⟩ := List.mem_filter.mp hqmem
    have hq : q = p :=
      List.inj_on_of_nodup_map hnodup hqtr hp (by rw [hqk, hek])
    rw [hq] at hqstale
    rw [hs'] at hqstale
    exact Bool.false_ne_true hqstale

/-- C9: `cleanup_old_downloads` removes exactly the stale entries (creation
timestamp older than `max_age_hours`, default 24), returns their count, and
keeps every non-stale entry unmodified. -/
theorem cleanup_old_downloads_exact (tr : Tracker) (now mah : Int)
    (hnodup : (tr.map Prod.fst).Nodup) :
    (cleanup_old_downloads tr now mah).1 = tr.filter (fun p => !(is_stale now mah p.2))
    ∧ (cleanup_old_downloads tr now mah).2
        = (tr.filter (fun p => is_stale now mah p.2)).length
    ∧ (∀ p ∈ tr, (p ∈ (cleanup_old_downloads tr now mah).1 ↔ is_stale now mah p.2 = false))
    ∧ cleanup_old_downloads_default tr now = cleanup_old_downloads tr now 24 := by
  have hfold : (cleanup_old_downloads tr now mah).1
      = tr.filter (fun p => !(is_stale now mah p.2)) := by
    show ((tr.filter (fun p => is_stale now mah p.2)).map Prod.fst).foldl
        (fun t k => eraseKey t k) tr = _
    rw [foldl_eraseKey]
    apply List.filter_congr
    intro p hp
    rw [stale_key_membership tr now mah hnodup p hp]
  refine ⟨hfold, by simp [cleanup_old_downloads], ?_, rfl⟩
  intro p hp
  rw [hfold]
  constructor
  · intro hmem
    have h2 := (List.mem_filter.mp hmem).2
    simpa using h2
  · intro hfalse
    exact List.mem_filter.mpr ⟨hp, by rw [hfalse]; rfl⟩

theorem cleanup_old_downloads_exact_witness :
    ((([("a", mkTrackInfo "torrent" "old" 0 none none none none false),
        ("b", mkTrackInfo "usenet" "new" 90000 none none none none false)] :
        Tracker).map Prod.fst).Nodup)
    ∧ (cleanup_old_downloads
        [("a", mkTrackInfo "torrent" "old" 0 none none none none false),
         ("b", mkTrackInfo "usenet" "new" 90000 none none none none false)]
        100000 24).2 = 1 := by
  constructor
  · decide
  · exact (cleanup_old_downloads_exact
      [("a", mkTrackInfo "torrent" "old" 0 none none none none false),
       ("b", mkTrackInfo "usenet" "new" 90000 none none none none false)]
      100000 24 (by decide)).2.1

/-- C10 (implicit): every tracker method except `remove_tracked_download`
coerces the identifier with `str(...)`, while `remove_tracked_download`
matches the raw value against the string keys.  Hence after tracking a
numeric identifier `n` (stored under `str(n)`), removal with the raw number
is a silent no-op, removal with the string form deletes the entry, and
lookup with the raw number still finds the record. -/
theorem remove_tracked_download_no_coercion (tr : Tracker) (n : Int)
    (dt fs : String) (ts : Int) (of di dh dd : Option String) (m : Bool)
    (h : containsKey tr (pyStr (PyVal.pint n)) = false) :
    remove_tracked_download (track_download tr (PyVal.pint n) dt fs ts of di dh dd m).2
        (PyVal.pint n)
      = (track_download tr (PyVal.pint n) dt fs ts of di dh dd m).2
    ∧ containsKey
        (remove_tracked_download (track_download tr (PyVal.pint n) dt fs ts of di dh dd m).2
          (PyVal.pstr (pyStr (PyVal.pint n))))
        (pyStr (PyVal.pint n)) = false
    ∧ get_download_info (track_download tr (PyVal.pint n) dt fs ts of di dh dd m).2
        (PyVal.pint n) = some (mkTrackInfo dt fs ts of di dh dd m) := by
  have hint_any : ∀ (l : Tracker), l.any (fun p => pyKeyEq (PyVal.pint n) p.1) = false := by
    intro l
    apply List.any_eq_false.mpr
    intro p _
    simp [pyKeyEq]
  have hstr_no : ∀ (l : Tracker),
      containsKey (remove_tracked_download l (PyVal.pstr (pyStr (PyVal.pint n))))
        (pyStr (PyVal.pint n)) = false := by
    intro l
    unfold remove_tracked_download
    by_cases hin : l.any (fun p => pyKeyEq (PyVal.pstr (pyStr (PyVal.pint n))) p.1) = true
    · rw [if_pos hin]
      apply List.any_eq_false.mpr
      intro p hp
      have := (List.mem_filter.mp hp).2
      simp only [pyKeyEq, Bool.not_eq_eq_eq_not, Bool.not_true] at this
      simp only [beq_iff_eq]
      intro hpk
      rw [hpk] at this
      simp at this
    · have hin' : l.any (fun p => pyKeyEq (PyVal.pstr (pyStr (PyVal.pint n))) p.1)
          = false := by
        cases hb : l.any (fun p => pyKeyEq (PyVal.pstr (pyStr (PyVal.pint n))) p.1)
        · rfl
        · exact absurd hb hin
      rw [if_neg hin]
      apply List.any_eq_false.mpr
      intro p hp
      have hall := List.any_eq_false.mp hin' p hp
      simp only [pyKeyEq, beq_iff_eq] at hall ⊢
      intro hpk
      exact hall hpk.symm
  refine ⟨?_, hstr_no _, ?_⟩
  · unfold remove_tracked_download
    rw [hint_any, if_neg (by simp)]
  · unfold get_download_info
    have hwrite : (track_download tr (PyVal.pint n) dt fs ts of di dh dd m).2
        = tr ++ [(pyStr (PyVal.pint n), mkTrackInfo dt fs ts of di dh dd m)] := by
      simp [track_download, h]
    rw [hwrite]
    exact lookupKey_append_single tr (pyStr (PyVal.pint n)) _ h

theorem remove_tracked_download_no_coercion_witness :
    containsKey ([] : Tracker) (pyStr (PyVal.pint 42)) = false
    ∧ remove_tracked_download
        (track_download ([] : Tracker) (PyVal.pint 42) "torrent" "movie" 0
          none none none none false).2 (PyVal.pint 42)
      = (track_download ([] : Tracker) (PyVal.pint 42) "torrent" "movie" 0
          none none none none false).2 :=
  ⟨rfl,
    (remove_tracked_download_no_coercion ([] : Tracker) 42 "torrent" "movie" 0
      none none none none false rfl).1⟩

end Torbox
